import Mathlib

/-!
Shallow embedding of the AsyncArrowReader repository.

Two variants of the reader exist in the source:
* `src/prototype/prototype_py.py` — the prototype reader (`AsyncRecordBatchReader`
  with a `_done` flag, an `asyncio.Future` schema cell, a background `_read_stream`
  task and a non-blocking `fetch_stream`);
* `src/test_vesa.py` — the earlier test-client variant (`AsyncRecordBatchReader`
  with a plain `_schema` attribute, no done flag, and an `AsyncArrowClient` whose
  `fetch_stream` awaits the whole native `process_stream` call in an executor).

Record batches, schemas and errors are opaque to the bridge, so they are modelled
as tagged values.  The external Decoder + ByteSource pair is out of scope of the
repository (native code); following the spec, a run of the decoder is abstracted
as the sequence of callback invocations it performs (`FeedScript.handles`)
followed by either clean EOF or a transfer-side exception (`FeedScript.transferErr`).
-/

namespace AsyncArrowReader

/-- An opaque decoded record batch: an identity tag plus the schema value that
`batch.schema` would yield in the source. -/
structure Batch where
  bid : Nat
  schema : Nat
deriving DecidableEq, Repr

/-- Python exceptions that the source can raise or store: decode-side conversion
failures (raised inside `_handle_batch`'s try block), transfer-side failures
(raised inside `_read_stream`'s try block), the `TypeError` from calling
`asyncio.wait_for` without its required `timeout` argument, the `ValueError`
raised by the vesa schema property, and the `RuntimeError` wrapper raised by the
vesa client's `fetch_stream`. -/
inductive PyError where
  | decodeError (n : Nat)
  | transferError (n : Nat)
  | typeError
  | valueError
  | runtimeError
deriving DecidableEq, Repr

/-- An item stored in `self._queue`: a record batch, an exception object
(`isinstance(batch, Exception)` in the iteration loop), or Python `None`
(checked by `if batch is None: break`). -/
inductive QItem where
  | unit (b : Batch)
  | exc (e : PyError)
  | pyNone
deriving DecidableEq, Repr

/-- One callback invocation by the decoder: either the C-Data handle converts to
a batch (`pa.RecordBatchReader._import_from_c(ptr)` followed by `next(stream)`
succeeds), or that conversion raises an exception. -/
inductive Handle where
  | ok (b : Batch)
  | bad (e : PyError)
deriving DecidableEq, Repr

/-- The mutable state of the prototype `AsyncRecordBatchReader`:
`_queue` (front of the list is the next item dequeued), `_error`, the `_schema`
future (`none` = not yet resolved), and the `_done` flag.  `_verbose` and
`_loop` are never mutated and carry no bridge state, so they are omitted. -/
structure ReaderState where
  queue : List QItem
  error : Option PyError
  schemaCell : Option Nat
  done : Bool
deriving DecidableEq, Repr

/-- `AsyncRecordBatchReader.__init__`: empty queue, no error, unresolved schema
future, not done. -/
def initReader : ReaderState := ⟨[], none, none, false⟩

/-- `AsyncRecordBatchReader.mark_done`: sets `self._done = True` and nothing
else — in particular it enqueues nothing. -/
def mark_done (r : ReaderState) : ReaderState := { r with done := true }

/-- The body of the `try` block of `AsyncRecordBatchReader._handle_batch`
(prototype variant): import the batch from the C handle (which may raise), set
the schema future if it is not yet done, and enqueue the batch.  The result is
`Except` so that the raising of the body is visible to `handle_batch`, which
models the surrounding `try`/`except`. -/
def handle_batch_body (r : ReaderState) (h : Handle) : Except PyError ReaderState :=
  match h with
  | .bad e => .error e
  | .ok b =>
    if r.schemaCell = none then
      .ok { r with schemaCell := some b.schema, queue := r.queue ++ [QItem.unit b] }
    else
      .ok { r with queue := r.queue ++ [QItem.unit b] }

/-- `AsyncRecordBatchReader._handle_batch` (prototype variant), including its
`except Exception as e:` clause: on failure of the body, store `self._error = e`
and enqueue the exception object; never re-raise. -/
def handle_batch (r : ReaderState) (h : Handle) : ReaderState :=
  match handle_batch_body r h with
  | .ok r1 => r1
  | .error e => { r with error := some e, queue := r.queue ++ [QItem.exc e] }

/-- Folding a sequence of decoder callback invocations over the reader: models
the callbacks triggered synchronously while `wrapper.consume_bytes` feeds
chunks. -/
def feedAll (r : ReaderState) (hs : List Handle) : ReaderState :=
  hs.foldl handle_batch r

/-- One run of the external Decoder + ByteSource pair, abstracted per the spec's
interface for them: the callback invocations it performs in order, then either
clean EOF (`transferErr = none`) or an exception raised on the feeding side. -/
structure FeedScript where
  handles : List Handle
  transferErr : Option PyError
deriving DecidableEq, Repr

/-- `_read_stream` (prototype variant): feed all chunks (triggering the callback
sequence), then on clean EOF call `reader.mark_done()`; on an exception set
`reader._error = e` (overwriting any stored error), call `reader.mark_done()`,
and re-raise into the background task (the second component). -/
def read_stream (r : ReaderState) (s : FeedScript) : ReaderState × Option PyError :=
  match s.transferErr with
  | none => (mark_done (feedAll r s.handles), none)
  | some e => (mark_done { feedAll r s.handles with error := some e }, some e)

/-- `fetch_stream` (prototype variant): create the reader, register the callback,
schedule `_read_stream` with `asyncio.create_task`, and return the reader.  The
first component is the reader state at the moment `fetch_stream` returns: since
there is no await between `create_task` and `return`, the background task has
not run yet, so this is the freshly constructed reader.  The second component is
the eventual result of the background task. -/
def fetch_stream (s : FeedScript) : ReaderState × (ReaderState × Option PyError) :=
  (initReader, read_stream initReader s)

/-- The prototype `schema` property: its body is `await asyncio.wait_for(self.schema)`.
`asyncio.wait_for` requires a `timeout` argument in every Python version, so the
call raises `TypeError` before anything is awaited, for every reader state (the
body also never returns a value and awaits the property coroutine itself rather
than the `_schema` future). -/
def schema_accessor (_r : ReaderState) : Except PyError Nat :=
  .error .typeError

/-- How the `while` loop of the prototype `__aiter__` exits, when run against a
reader whose feeding has already finished. -/
inductive LoopExit where
  | cond
  | brk
  | raised (e : PyError)
  | blocked
deriving DecidableEq, Repr

/-- The `while not self._done or not self._queue.empty():` loop of the prototype
`__aiter__`, run against a fixed reader state: with an empty queue the loop
exits if `done` holds, otherwise `await self._queue.get()` suspends forever
(`blocked`, since no producer remains to enqueue); an exception item is raised;
`None` breaks; a batch is yielded and the loop continues.  Returns the yielded
batches and the way the loop ended. -/
def iterLoop (done : Bool) : List QItem → List Batch × LoopExit
  | [] => if done then ([], LoopExit.cond) else ([], LoopExit.blocked)
  | QItem.unit b :: rest =>
    let p := iterLoop done rest
    (b :: p.1, p.2)
  | QItem.exc e :: _ => ([], LoopExit.raised e)
  | QItem.pyNone :: _ => ([], LoopExit.brk)

/-- The `finally: if self._error: raise self._error` clause shared by both
variants: if the loop suspended forever the clause never runs; otherwise, when
`_error` is set it is raised, replacing any exception in flight (a raise inside
`finally` supersedes the original exception in Python); with no stored error the
loop's own exception, if any, propagates.  Result: yielded batches, the
exception surfaced to the consumer, and whether the iteration is suspended
forever. -/
def applyFinally (err : Option PyError) : List Batch × LoopExit → List Batch × Option PyError × Bool
  | (ys, LoopExit.blocked) => (ys, none, true)
  | (ys, LoopExit.raised e) => (ys, some (err.getD e), false)
  | (ys, _) => (ys, err, false)

/-- The prototype `__aiter__`, run against a fixed reader state (feeding already
finished): the loop followed by the `finally` clause. -/
def aiter_run (r : ReaderState) : List Batch × Option PyError × Bool :=
  applyFinally r.error (iterLoop r.done r.queue)

/-- The mutable state of the vesa-variant `AsyncRecordBatchReader`
(src/test_vesa.py): `_schema` plain attribute, `_queue`, `_error`; there is no
done flag in this variant. -/
structure VReaderState where
  schemaCell : Option Nat
  queue : List QItem
  error : Option PyError
deriving DecidableEq, Repr

/-- Vesa `AsyncRecordBatchReader.__init__`. -/
def initVReader : VReaderState := ⟨none, [], none⟩

/-- The vesa `schema` property: raises `ValueError` if `self._schema is None`,
else returns it (no suspension). -/
def vesa_schema (r : VReaderState) : Except PyError Nat :=
  match r.schemaCell with
  | none => .error .valueError
  | some s => .ok s

/-- The body of the `try` block of the vesa `_handle_batch`: same logic as the
prototype, with `self._schema is None` as the publish guard. -/
def vesa_handle_batch_body (r : VReaderState) (h : Handle) : Except PyError VReaderState :=
  match h with
  | .bad e => .error e
  | .ok b =>
    if r.schemaCell = none then
      .ok { r with schemaCell := some b.schema, queue := r.queue ++ [QItem.unit b] }
    else
      .ok { r with queue := r.queue ++ [QItem.unit b] }

/-- The vesa `_handle_batch` including its `except` clause. -/
def vesa_handle_batch (r : VReaderState) (h : Handle) : VReaderState :=
  match vesa_handle_batch_body r h with
  | .ok r1 => r1
  | .error e => { r with error := some e, queue := r.queue ++ [QItem.exc e] }

/-- The `while not self._queue.empty():` loop of the vesa `__aiter__`: exits as
soon as the queue is empty (never suspends, since `get` is only called on a
non-empty queue); otherwise handles the head item like the prototype. -/
def vesaIterLoop : List QItem → List Batch × LoopExit
  | [] => ([], LoopExit.cond)
  | QItem.unit b :: rest =>
    let p := vesaIterLoop rest
    (b :: p.1, p.2)
  | QItem.exc e :: _ => ([], LoopExit.raised e)
  | QItem.pyNone :: _ => ([], LoopExit.brk)

/-- The `finally` clause of the vesa `__aiter__` (same Python code as the
prototype's): a stored error is raised, replacing any in-flight exception; this
variant's loop never suspends, so there is no blocked case. -/
def vesaFinally (err : Option PyError) : List Batch × LoopExit → List Batch × Option PyError
  | (ys, LoopExit.raised e) => (ys, some (err.getD e))
  | (ys, _) => (ys, err)

/-- The vesa `__aiter__`: loop then `finally` clause; this variant never
suspends, so the result is the yielded batches and the surfaced exception. -/
def vesa_aiter_run (r : VReaderState) : List Batch × Option PyError :=
  vesaFinally r.error (vesaIterLoop r.queue)

/-- Modelled from the spec: `prototype.process_stream` is the native extension
entry point used by the vesa client; it is part of this repository but not under
src/.  Per the spec's Decoder/ByteFeeder interfaces it synchronously downloads
and decodes the whole stream, invoking the registered callback once per decoded
unit, and returns on EOF or raises the transfer error. -/
def process_stream (r : VReaderState) (s : FeedScript) : VReaderState × Option PyError :=
  (s.handles.foldl vesa_handle_batch r, s.transferErr)

/-- `AsyncArrowClient.fetch_stream` (vesa variant): awaits
`run_in_executor(process_stream ...)` — i.e. runs the whole stream processing to
completion before returning; on an exception from processing it raises
`RuntimeError`, otherwise it returns the (fully fed) reader. -/
def vesa_fetch_stream (s : FeedScript) : Except PyError VReaderState :=
  match process_stream initVReader s with
  | (_, some _) => .error .runtimeError
  | (r1, none) => .ok r1

/-- Whether the consumer's iteration (prototype variant) is still inside its
loop, or has finished with the exception it surfaced (if any). -/
inductive ConsStatus where
  | running
  | finished (e : Option PyError)
deriving DecidableEq, Repr

/-- An interleaved run of the prototype pipeline: the callback invocations the
producer has yet to deliver, the shared reader, the batches the consumer has
yielded so far, and the consumer's status. -/
structure SysState where
  pending : List Handle
  r : ReaderState
  yielded : List Batch
  cstatus : ConsStatus
deriving DecidableEq, Repr

/-- One producer step: deliver the next callback invocation through
`_handle_batch`, or — once all invocations are delivered — perform the feeder's
EOF action `reader.mark_done()` (idempotent after the first time). -/
def prodStep (s : SysState) : SysState :=
  match s.pending with
  | h :: rest => { s with pending := rest, r := handle_batch s.r h }
  | [] => { s with r := mark_done s.r }

/-- One consumer step of the prototype `__aiter__` loop: if the loop condition
`not self._done or not self._queue.empty()` fails, exit the loop and run the
`finally` clause; with an empty queue (and not done) the dequeue would suspend,
so no progress is made; otherwise process the dequeued head item. -/
def consStep (s : SysState) : SysState :=
  match s.cstatus with
  | .finished _ => s
  | .running =>
    if s.r.done = true ∧ s.r.queue = [] then
      { s with cstatus := .finished s.r.error }
    else
      match s.r.queue with
      | [] => s
      | QItem.unit b :: rest =>
        { s with r := { s.r with queue := rest }, yielded := s.yielded ++ [b] }
      | QItem.exc e :: rest =>
        { s with r := { s.r with queue := rest },
                 cstatus := .finished (some (s.r.error.getD e)) }
      | QItem.pyNone :: rest =>
        { s with r := { s.r with queue := rest }, cstatus := .finished s.r.error }

/-- Run a schedule: `true` picks a producer step, `false` a consumer step. -/
def sysRun (s : SysState) (sched : List Bool) : SysState :=
  sched.foldl (fun st c => if c then prodStep st else consStep st) s

/-- The pipeline state right after `fetch_stream` returns: all callback
invocations pending, fresh reader, consumer about to iterate. -/
def initSys (hs : List Handle) : SysState :=
  ⟨hs, initReader, [], .running⟩

/-! ### Helper lemmas -/

theorem handle_batch_ok (r : ReaderState) (b : Batch) :
    handle_batch r (Handle.ok b) =
      if r.schemaCell = none then
        { r with schemaCell := some b.schema, queue := r.queue ++ [QItem.unit b] }
      else
        { r with queue := r.queue ++ [QItem.unit b] } := by
  by_cases hc : r.schemaCell = none <;>
    simp [handle_batch, handle_batch_body, hc]

theorem handle_batch_bad (r : ReaderState) (e : PyError) :
    handle_batch r (Handle.bad e) =
      { r with error := some e, queue := r.queue ++ [QItem.exc e] } := rfl

theorem handle_batch_ok_queue (r : ReaderState) (b : Batch) :
    (handle_batch r (Handle.ok b)).queue = r.queue ++ [QItem.unit b] := by
  rw [handle_batch_ok]; split <;> rfl

theorem handle_batch_ok_error (r : ReaderState) (b : Batch) :
    (handle_batch r (Handle.ok b)).error = r.error := by
  rw [handle_batch_ok]; split <;> rfl

theorem handle_batch_ok_done (r : ReaderState) (b : Batch) :
    (handle_batch r (Handle.ok b)).done = r.done := by
  rw [handle_batch_ok]; split <;> rfl

theorem feedAll_nil (r : ReaderState) : feedAll r [] = r := rfl

theorem feedAll_cons (r : ReaderState) (h : Handle) (hs : List Handle) :
    feedAll r (h :: hs) = feedAll (handle_batch r h) hs := rfl

theorem feedAll_append (r : ReaderState) (hs1 hs2 : List Handle) :
    feedAll r (hs1 ++ hs2) = feedAll (feedAll r hs1) hs2 :=
  List.foldl_append handle_batch r hs1 hs2

theorem feedAll_ok_fields (us : List Batch) : ∀ r : ReaderState,
    (feedAll r (us.map Handle.ok)).queue = r.queue ++ us.map QItem.unit ∧
    (feedAll r (us.map Handle.ok)).error = r.error ∧
    (feedAll r (us.map Handle.ok)).done = r.done := by
  induction us with
  | nil => intro r; simp [feedAll]
  | cons b us ih =>
    intro r
    obtain ⟨h1, h2, h3⟩ := ih (handle_batch r (Handle.ok b))
    simp only [List.map_cons, feedAll_cons]
    refine ⟨?_, ?_, ?_⟩
    · rw [h1, handle_batch_ok_queue]; simp
    · rw [h2, handle_batch_ok_error]
    · rw [h3, handle_batch_ok_done]

theorem iterLoop_units (done : Bool) (us : List Batch) (q : List QItem) :
    iterLoop done (us.map QItem.unit ++ q) =
      (us ++ (iterLoop done q).1, (iterLoop done q).2) := by
  induction us with
  | nil => simp
  | cons b us ih => simp [iterLoop, ih]

theorem vesaIterLoop_units (us : List Batch) (q : List QItem) :
    vesaIterLoop (us.map QItem.unit ++ q) =
      (us ++ (vesaIterLoop q).1, (vesaIterLoop q).2) := by
  induction us with
  | nil => simp
  | cons b us ih => simp [vesaIterLoop, ih]

/-- Invariant of an interleaved clean run (all callback invocations succeed):
`us` splits into the part `ys` already delivered by the producer and the part
`zs` still pending; the queue holds exactly the delivered-but-not-yet-dequeued
batches `qs`; yielded batches followed by queued batches equal the delivered
part; no error is ever stored; the done flag implies everything was delivered;
and a finished consumer finished cleanly having yielded all of `us`. -/
def Inv (us : List Batch) (s : SysState) : Prop :=
  ∃ ys zs qs, us = ys ++ zs ∧
    s.pending = zs.map Handle.ok ∧
    s.r.queue = qs.map QItem.unit ∧
    s.yielded ++ qs = ys ∧
    s.r.error = none ∧
    (s.r.done = true → zs = []) ∧
    (∀ e, s.cstatus = ConsStatus.finished e → e = none ∧ s.yielded = us)

theorem inv_init (us : List Batch) : Inv us (initSys (us.map Handle.ok)) := by
  refine ⟨[], us, [], by simp, by simp [initSys], by simp [initSys, initReader],
    by simp [initSys], by simp [initSys, initReader], ?_, ?_⟩
  · intro h; simp [initSys, initReader] at h
  · intro e h; simp [initSys] at h


theorem vesa_handle_batch_ok (r : VReaderState) (b : Batch) :
    vesa_handle_batch r (Handle.ok b) =
      if r.schemaCell = none then
        { r with schemaCell := some b.schema, queue := r.queue ++ [QItem.unit b] }
      else
        { r with queue := r.queue ++ [QItem.unit b] } := by
  by_cases hc : r.schemaCell = none <;>
    simp [vesa_handle_batch, vesa_handle_batch_body, hc]

theorem vesa_handle_batch_bad (r : VReaderState) (e : PyError) :
    vesa_handle_batch r (Handle.bad e) =
      { r with error := some e, queue := r.queue ++ [QItem.exc e] } := rfl

theorem iterLoop_units_done (us : List Batch) :
    iterLoop true (us.map QItem.unit) = (us, LoopExit.cond) := by
  have h := iterLoop_units true us []
  rw [List.append_nil] at h
  simpa [iterLoop] using h

theorem vesaIterLoop_units_nil (us : List Batch) :
    vesaIterLoop (us.map QItem.unit) = (us, LoopExit.cond) := by
  have h := vesaIterLoop_units us []
  rw [List.append_nil] at h
  simpa [vesaIterLoop] using h

/-- C1 - corrected.  The clean-completion half of the claim holds, but the
feeder enqueues nothing on EOF.  For every error-free stream of M units: the
feeder transitions the reader to done with the queue holding exactly the M
units (no sentinel appended), the background task raises nothing, the iteration
run after feeding yields exactly the M units and terminates without error, and
`mark_done` leaves the queue of any reader untouched. -/
theorem c1_clean_completion (us : List Batch) :
    (read_stream initReader ⟨us.map Handle.ok, none⟩).1.done = true ∧
    (read_stream initReader ⟨us.map Handle.ok, none⟩).1.queue = us.map QItem.unit ∧
    (read_stream initReader ⟨us.map Handle.ok, none⟩).2 = none ∧
    aiter_run (read_stream initReader ⟨us.map Handle.ok, none⟩).1 = (us, none, false) ∧
    (∀ r : ReaderState, (mark_done r).queue = r.queue) := by
  have hr : (read_stream initReader ⟨us.map Handle.ok, none⟩).1 =
      mark_done (feedAll initReader (us.map Handle.ok)) := rfl
  obtain ⟨h1, h2, h3⟩ := feedAll_ok_fields us initReader
  have hq : (mark_done (feedAll initReader (us.map Handle.ok))).queue = us.map QItem.unit := by
    show (feedAll initReader (us.map Handle.ok)).queue = us.map QItem.unit
    rw [h1]; rfl
  have he : (mark_done (feedAll initReader (us.map Handle.ok))).error = none := by
    show (feedAll initReader (us.map Handle.ok)).error = none
    rw [h2]; rfl
  refine ⟨by rw [hr]; rfl, by rw [hr]; exact hq, rfl, ?_, fun r => rfl⟩
  rw [hr]
  show applyFinally (mark_done (feedAll initReader (us.map Handle.ok))).error
      (iterLoop (mark_done (feedAll initReader (us.map Handle.ok))).done
        (mark_done (feedAll initReader (us.map Handle.ok))).queue) = (us, none, false)
  have hd : (mark_done (feedAll initReader (us.map Handle.ok))).done = true := rfl
  rw [he, hd, hq, iterLoop_units_done]
  rfl

/-- C1 - counterexample to the claim as stated: after a clean EOF on a
one-unit stream the queue holds exactly that unit and nothing else — no
EndMarker sentinel was enqueued (and on a zero-unit stream the queue is empty),
and a consumer step on an empty queue of a not-yet-done reader makes no
progress, so nothing wakes a blocked consumer. -/
theorem c1_no_endmarker_counterexample :
    (read_stream initReader ⟨[Handle.ok ⟨1, 7⟩], none⟩).1.queue = [QItem.unit ⟨1, 7⟩] ∧
    (read_stream initReader ⟨[], none⟩).1.queue = [] ∧
    (read_stream initReader ⟨[], none⟩).1.done = true ∧
    consStep ⟨[], ⟨[], none, none, false⟩, [], ConsStatus.running⟩ =
      ⟨[], ⟨[], none, none, false⟩, [], ConsStatus.running⟩ := by
  refine ⟨?_, ?_, ?_, ?_⟩ <;> decide

/-- C2 - corrected.  If a decode error `de` occurs after units u1..uk were
enqueued and a transfer error `te` occurs afterward in the feeder, the feeder
overwrites the stored decode error with `te`, and the iteration yields u1..uk
in order and then fails with the transfer error `te` (the `finally` clause
re-raises the stored error, replacing the decode error raised from the queue). -/
theorem c2_later_error_overwrites (us : List Batch) (de te : PyError) :
    (read_stream initReader ⟨us.map Handle.ok ++ [Handle.bad de], some te⟩).1.error = some te ∧
    aiter_run (read_stream initReader ⟨us.map Handle.ok ++ [Handle.bad de], some te⟩).1 =
      (us, some te, false) := by
  have hr : (read_stream initReader ⟨us.map Handle.ok ++ [Handle.bad de], some te⟩).1 =
      mark_done { feedAll initReader (us.map Handle.ok ++ [Handle.bad de]) with
                  error := some te } := rfl
  obtain ⟨h1, h2, h3⟩ := feedAll_ok_fields us initReader
  have hfeed : feedAll initReader (us.map Handle.ok ++ [Handle.bad de]) =
      handle_batch (feedAll initReader (us.map Handle.ok)) (Handle.bad de) := by
    rw [feedAll_append]; rfl
  have hQ : (feedAll initReader (us.map Handle.ok ++ [Handle.bad de])).queue =
      us.map QItem.unit ++ [QItem.exc de] := by
    rw [hfeed, handle_batch_bad]
    show (feedAll initReader (us.map Handle.ok)).queue ++ [QItem.exc de] =
      us.map QItem.unit ++ [QItem.exc de]
    rw [h1]; rfl
  refine ⟨by rw [hr]; rfl, ?_⟩
  rw [hr]
  show applyFinally (some te)
      (iterLoop true (feedAll initReader (us.map Handle.ok ++ [Handle.bad de])).queue) =
    (us, some te, false)
  rw [hQ, iterLoop_units]
  show (us ++ [], some te, false) = (us, some te, false)
  rw [List.append_nil]

/-- C2 - counterexample to the claim as stated at a concrete input: one unit,
then a decode error, then a transfer error; the iteration yields the unit and
then fails with the transfer error, which is not the decode error. -/
theorem c2_counterexample :
    aiter_run (read_stream initReader
        ⟨[Handle.ok ⟨1, 7⟩, Handle.bad (PyError.decodeError 3)],
         some (PyError.transferError 4)⟩).1 =
      ([⟨1, 7⟩], some (PyError.transferError 4), false) ∧
    PyError.transferError 4 ≠ PyError.decodeError 3 := by
  refine ⟨?_, ?_⟩ <;> decide

theorem inv_prodStep (us : List Batch) (s : SysState) (h : Inv us s) :
    Inv us (prodStep s) := by
  obtain ⟨ys, zs, qs, hus, hp, hq, hyq, herr, hdone, hfin⟩ := h
  cases zs with
  | nil =>
    have hp0 : s.pending = [] := by simpa using hp
    have hstep : prodStep s = { s with r := mark_done s.r } := by
      simp [prodStep, hp0]
    rw [hstep]
    exact ⟨ys, [], qs, hus, hp, hq, hyq, herr, fun _ => rfl, hfin⟩
  | cons b zs' =>
    have hp0 : s.pending = Handle.ok b :: zs'.map Handle.ok := by simpa using hp
    have hstep : prodStep s =
        { s with pending := zs'.map Handle.ok, r := handle_batch s.r (Handle.ok b) } := by
      simp [prodStep, hp0]
    rw [hstep]
    refine ⟨ys ++ [b], zs', qs ++ [b], by rw [hus]; simp, rfl, ?_, ?_, ?_, ?_, ?_⟩
    · show (handle_batch s.r (Handle.ok b)).queue = (qs ++ [b]).map QItem.unit
      rw [handle_batch_ok_queue, hq]; simp
    · show s.yielded ++ (qs ++ [b]) = ys ++ [b]
      rw [← List.append_assoc, hyq]
    · show (handle_batch s.r (Handle.ok b)).error = none
      rw [handle_batch_ok_error]; exact herr
    · show (handle_batch s.r (Handle.ok b)).done = true → zs' = []
      rw [handle_batch_ok_done]
      intro hd
      exact absurd (hdone hd) (by simp)
    · intro e he
      exact hfin e he

theorem inv_consStep (us : List Batch) (s : SysState) (h : Inv us s) :
    Inv us (consStep s) := by
  obtain ⟨ys, zs, qs, hus, hp, hq, hyq, herr, hdone, hfin⟩ := h
  cases hc : s.cstatus with
  | finished e0 =>
    have hstep : consStep s = s := by simp [consStep, hc]
    rw [hstep]
    exact ⟨ys, zs, qs, hus, hp, hq, hyq, herr, hdone, hfin⟩
  | running =>
    by_cases hcond : s.r.done = true ∧ s.r.queue = []
    · have hstep : consStep s = { s with cstatus := .finished s.r.error } := by
        simp [consStep, hc, hcond]
      have hzs : zs = [] := hdone hcond.1
      have hqs : qs = [] := by
        have h2 := hcond.2
        rw [hq] at h2
        simpa using h2
      have hy : s.yielded = us := by
        rw [hus, hzs, List.append_nil, ← hyq, hqs, List.append_nil]
      rw [hstep]
      refine ⟨ys, zs, qs, hus, hp, hq, hyq, herr, hdone, ?_⟩
      intro e he
      have he1 : ConsStatus.finished s.r.error = ConsStatus.finished e := he
      rw [herr] at he1
      have he2 : none = e := by injection he1
      exact ⟨he2.symm, hy⟩
    · cases qs with
      | nil =>
        have hq0 : s.r.queue = [] := by simpa using hq
        have hdf : s.r.done = false := by
          cases hb : s.r.done
          · rfl
          · exact absurd ⟨hb, hq0⟩ hcond
        have hstep : consStep s = s := by
          simp [consStep, hc, hq0, hdf]
        rw [hstep]
        exact ⟨ys, zs, [], hus, hp, hq, hyq, herr, hdone, hfin⟩
      | cons b qs' =>
        have hq0 : s.r.queue = QItem.unit b :: qs'.map QItem.unit := by simpa using hq
        have hstep : consStep s =
            { s with r := { s.r with queue := qs'.map QItem.unit },
                     yielded := s.yielded ++ [b] } := by
          simp [consStep, hc, hq0]
        rw [hstep]
        refine ⟨ys, zs, qs', hus, hp, rfl, ?_, herr, hdone, ?_⟩
        · show (s.yielded ++ [b]) ++ qs' = ys
          rw [List.append_assoc, ← hyq]; rfl
        · intro e he
          have h2 : ConsStatus.running = ConsStatus.finished e := by
            rw [← hc]; exact he
          exact absurd h2 (by simp)

theorem inv_sysRun (us : List Batch) (sched : List Bool) :
    ∀ s : SysState, Inv us s → Inv us (sysRun s sched) := by
  induction sched with
  | nil => intro s h; exact h
  | cons c cs ih =>
    intro s h
    have h1 : Inv us (if c then prodStep s else consStep s) := by
      cases c
      · simpa using inv_consStep us s h
      · simpa using inv_prodStep us s h
    exact ih _ h1

/-- C4 - confirmed.  For every sequence of units u1..uN fed in order, under any
interleaving of producer steps (callback enqueues, then EOF marking) and
consumer steps (loop-condition checks and dequeues), a finished iteration has
yielded exactly u1..uN in order with no error; and in the vesa variant,
iterating a reader whose queue was fully fed with u1..uN yields exactly u1..uN
with no error.  Items leave the queue in exactly the order they were enqueued
(the queue is a FIFO list throughout). -/
theorem c4_ordering :
    (∀ (us : List Batch) (sched : List Bool) (e : Option PyError),
        (sysRun (initSys (us.map Handle.ok)) sched).cstatus = ConsStatus.finished e →
        e = none ∧ (sysRun (initSys (us.map Handle.ok)) sched).yielded = us) ∧
    (∀ us : List Batch,
        vesa_aiter_run ⟨none, us.map QItem.unit, none⟩ = (us, none)) := by
  constructor
  · intro us sched e hfin
    obtain ⟨ys, zs, qs, hus, hp, hq, hyq, herr, hdone, hlast⟩ :=
      inv_sysRun us sched _ (inv_init us)
    exact hlast e hfin
  · intro us
    show vesaFinally none (vesaIterLoop (us.map QItem.unit)) = (us, none)
    rw [vesaIterLoop_units_nil]
    rfl

/-- C4 - witness: a concrete two-unit stream under the schedule
producer, producer, producer (EOF), consumer, consumer, consumer finishes
cleanly having yielded both units in order. -/
theorem c4_ordering_witness :
    (sysRun (initSys (([⟨1, 7⟩, ⟨2, 7⟩] : List Batch).map Handle.ok))
        [true, true, true, false, false, false]).cstatus = ConsStatus.finished none ∧
    (sysRun (initSys (([⟨1, 7⟩, ⟨2, 7⟩] : List Batch).map Handle.ok))
        [true, true, true, false, false, false]).yielded = [⟨1, 7⟩, ⟨2, 7⟩] :=
  ⟨by decide,
   (c4_ordering.1 [⟨1, 7⟩, ⟨2, 7⟩] [true, true, true, false, false, false] none (by decide)).2⟩

/-- C3 - the prototype schema accessor is broken, contradicting both the claim
and the accessor's own docstring: for every reader state — including one whose
schema future is resolved, and the state reached after a clean empty stream —
it raises `TypeError` (from calling `asyncio.wait_for` without its required
`timeout` argument) instead of returning the published schema or failing with a
`NoDataError`.  The vesa variant's property does not suspend either: it raises
`ValueError` when unset and returns the schema when set. -/
theorem c3_schema_accessor_broken :
    (∀ r : ReaderState, schema_accessor r = Except.error PyError.typeError) ∧
    schema_accessor (read_stream initReader ⟨[], none⟩).1 = Except.error PyError.typeError ∧
    schema_accessor ⟨[], none, some 7, true⟩ = Except.error PyError.typeError ∧
    vesa_schema initVReader = Except.error PyError.valueError ∧
    (∀ s0 : Nat, vesa_schema ⟨some s0, [], none⟩ = Except.ok s0) :=
  ⟨fun _ => rfl, rfl, rfl, rfl, fun _ => rfl⟩

/-- C5 - corrected.  The prototype `fetch_stream` is non-blocking: the reader
it returns is the freshly initialised reader, independent of the stream, and
the feeding runs as a background task.  The vesa client's `fetch_stream` is
not: it awaits the whole stream processing before returning, returning the
fully fed reader on success and raising `RuntimeError` when processing
failed. -/
theorem c5_fetch_variants :
    (∀ s : FeedScript, (fetch_stream s).1 = initReader) ∧
    (∀ s : FeedScript, (fetch_stream s).2 = read_stream initReader s) ∧
    (∀ s : FeedScript, s.transferErr = none →
        vesa_fetch_stream s = Except.ok (process_stream initVReader s).1) ∧
    (∀ (s : FeedScript) (e : PyError), s.transferErr = some e →
        vesa_fetch_stream s = Except.error PyError.runtimeError) := by
  refine ⟨fun _ => rfl, fun _ => rfl, ?_, ?_⟩
  · intro s hnone
    simp [vesa_fetch_stream, process_stream, hnone]
  · intro s e hsome
    simp [vesa_fetch_stream, process_stream, hsome]

/-- C5 - witness for the hypotheses of `c5_fetch_variants`: on a concrete
clean one-unit script the vesa fetch returns the fully fed reader. -/
theorem c5_fetch_variants_witness :
    (FeedScript.mk [Handle.ok ⟨1, 7⟩] none).transferErr = none ∧
    vesa_fetch_stream ⟨[Handle.ok ⟨1, 7⟩], none⟩ =
      Except.ok (process_stream initVReader ⟨[Handle.ok ⟨1, 7⟩], none⟩).1 :=
  ⟨rfl, c5_fetch_variants.2.2.1 ⟨[Handle.ok ⟨1, 7⟩], none⟩ rfl⟩

/-- C5 - counterexample to the claim as stated: the vesa client's fetch has
already consumed the stream when it returns — on a clean one-unit script it
returns a reader whose queue already holds the unit (and on the same script
ending in a transfer error it raises instead of returning a reader at all),
while the prototype fetch returns the untouched initial reader. -/
theorem c5_counterexample :
    vesa_fetch_stream ⟨[Handle.ok ⟨1, 7⟩], none⟩ =
      Except.ok ⟨some 7, [QItem.unit ⟨1, 7⟩], none⟩ ∧
    vesa_fetch_stream ⟨[Handle.ok ⟨1, 7⟩], some (PyError.transferError 0)⟩ =
      Except.error PyError.runtimeError ∧
    (fetch_stream ⟨[Handle.ok ⟨1, 7⟩], none⟩).1.queue = [] :=
  ⟨rfl, rfl, rfl⟩

theorem handle_batch_schema_mono (r : ReaderState) (h : Handle) (s0 : Nat)
    (hs : r.schemaCell = some s0) : (handle_batch r h).schemaCell = some s0 := by
  cases h with
  | bad e => rw [handle_batch_bad]; exact hs
  | ok b => rw [handle_batch_ok]; simp [hs]

theorem vesa_handle_batch_schema_mono (r : VReaderState) (h : Handle) (s0 : Nat)
    (hs : r.schemaCell = some s0) : (vesa_handle_batch r h).schemaCell = some s0 := by
  cases h with
  | bad e => rw [vesa_handle_batch_bad]; exact hs
  | ok b => rw [vesa_handle_batch_ok]; simp [hs]

theorem feedAll_schema_mono (hs : List Handle) : ∀ (r : ReaderState) (s0 : Nat),
    r.schemaCell = some s0 → (feedAll r hs).schemaCell = some s0 := by
  induction hs with
  | nil => intro r s0 h; exact h
  | cons hd tl ih =>
    intro r s0 h
    rw [feedAll_cons]
    exact ih _ s0 (handle_batch_schema_mono r hd s0 h)

theorem vesa_foldl_schema_mono (hs : List Handle) : ∀ (r : VReaderState) (s0 : Nat),
    r.schemaCell = some s0 → (hs.foldl vesa_handle_batch r).schemaCell = some s0 := by
  induction hs with
  | nil => intro r s0 h; exact h
  | cons hd tl ih =>
    intro r s0 h
    exact ih _ s0 (vesa_handle_batch_schema_mono r hd s0 h)

/-- C6 - confirmed, in both variants: once the schema cell holds a value, no
further callback invocation changes it; and after any callback sequence whose
first invocation delivers unit u1, the cell holds exactly the schema of u1 —
no matter how many further invocations (successful or failing) occur. -/
theorem c6_schema_published_once :
    (∀ (r : ReaderState) (h : Handle) (s0 : Nat), r.schemaCell = some s0 →
        (handle_batch r h).schemaCell = some s0) ∧
    (∀ (b : Batch) (hs : List Handle),
        (feedAll initReader (Handle.ok b :: hs)).schemaCell = some b.schema) ∧
    (∀ (r : VReaderState) (h : Handle) (s0 : Nat), r.schemaCell = some s0 →
        (vesa_handle_batch r h).schemaCell = some s0) ∧
    (∀ (b : Batch) (hs : List Handle),
        ((Handle.ok b :: hs).foldl vesa_handle_batch initVReader).schemaCell =
          some b.schema) := by
  refine ⟨handle_batch_schema_mono, ?_, vesa_handle_batch_schema_mono, ?_⟩
  · intro b hs
    rw [feedAll_cons]
    refine feedAll_schema_mono hs _ _ ?_
    rw [handle_batch_ok]
    simp [initReader]
  · intro b hs
    show (hs.foldl vesa_handle_batch (vesa_handle_batch initVReader (Handle.ok b))).schemaCell =
      some b.schema
    refine vesa_foldl_schema_mono hs _ _ ?_
    rw [vesa_handle_batch_ok]
    simp [initVReader]

/-- C6 - witness: a reader whose cell already holds schema 5 keeps it through a
further callback invocation. -/
theorem c6_schema_published_once_witness :
    (ReaderState.mk [] none (some 5) false).schemaCell = some 5 ∧
    (handle_batch ⟨[], none, some 5, false⟩ (Handle.ok ⟨2, 9⟩)).schemaCell = some 5 :=
  ⟨rfl, c6_schema_published_once.1 ⟨[], none, some 5, false⟩ (Handle.ok ⟨2, 9⟩) 5 rfl⟩

/-- C7 - confirmed, in both variants: a failing handle makes the callback body
raise, and the callback as a whole (body plus its catch-all `except` clause)
still returns a reader state — the error is recorded in `_error` and enqueued
as a marker instead of propagating to the decoder's call stack. -/
theorem c7_callback_never_raises :
    (∀ (r : ReaderState) (e : PyError),
        handle_batch_body r (Handle.bad e) = Except.error e) ∧
    (∀ (r : ReaderState) (h : Handle) (e : PyError),
        handle_batch_body r h = Except.error e →
        handle_batch r h = { r with error := some e, queue := r.queue ++ [QItem.exc e] }) ∧
    (∀ (r : VReaderState) (h : Handle) (e : PyError),
        vesa_handle_batch_body r h = Except.error e →
        vesa_handle_batch r h =
          { r with error := some e, queue := r.queue ++ [QItem.exc e] }) := by
  refine ⟨fun _ _ => rfl, ?_, ?_⟩
  · intro r h e hb
    unfold handle_batch
    rw [hb]
  · intro r h e hb
    unfold vesa_handle_batch
    rw [hb]

/-- C7 - witness: a concrete failing handle is caught, recorded and enqueued. -/
theorem c7_callback_never_raises_witness :
    handle_batch_body initReader (Handle.bad (PyError.decodeError 1)) =
      Except.error (PyError.decodeError 1) ∧
    handle_batch initReader (Handle.bad (PyError.decodeError 1)) =
      { initReader with error := some (PyError.decodeError 1),
                        queue := initReader.queue ++ [QItem.exc (PyError.decodeError 1)] } :=
  ⟨rfl, c7_callback_never_raises.2.1 initReader (Handle.bad (PyError.decodeError 1))
      (PyError.decodeError 1) rfl⟩

/-- C8 - confirmed, in both variants: every callback invocation appends exactly
one item to the queue (the unit on success, the error marker on failure),
leaves the done flag unchanged (prototype), either leaves the schema cell
unchanged or publishes into an unset cell from a successful handle, and either
leaves the error unchanged or records the failing handle's error; no other
reader state is touched. -/
theorem c8_frame_effect :
    (∀ (r : ReaderState) (h : Handle),
      (∃ it : QItem, (handle_batch r h).queue = r.queue ++ [it] ∧
        ((∃ b, h = Handle.ok b ∧ it = QItem.unit b) ∨
         (∃ e, h = Handle.bad e ∧ it = QItem.exc e))) ∧
      (handle_batch r h).done = r.done ∧
      ((handle_batch r h).schemaCell = r.schemaCell ∨
        (r.schemaCell = none ∧ ∃ b, h = Handle.ok b ∧
          (handle_batch r h).schemaCell = some b.schema)) ∧
      ((handle_batch r h).error = r.error ∨
        ∃ e, h = Handle.bad e ∧ (handle_batch r h).error = some e)) ∧
    (∀ (r : VReaderState) (h : Handle),
      (∃ it : QItem, (vesa_handle_batch r h).queue = r.queue ++ [it] ∧
        ((∃ b, h = Handle.ok b ∧ it = QItem.unit b) ∨
         (∃ e, h = Handle.bad e ∧ it = QItem.exc e))) ∧
      ((vesa_handle_batch r h).schemaCell = r.schemaCell ∨
        (r.schemaCell = none ∧ ∃ b, h = Handle.ok b ∧
          (vesa_handle_batch r h).schemaCell = some b.schema)) ∧
      ((vesa_handle_batch r h).error = r.error ∨
        ∃ e, h = Handle.bad e ∧ (vesa_handle_batch r h).error = some e)) := by
  constructor
  · intro r h
    cases h with
    | ok b =>
      by_cases hc : r.schemaCell = none
      · have hb := handle_batch_ok r b
        rw [if_pos hc] at hb
        exact ⟨⟨QItem.unit b, by simp [hb], Or.inl ⟨b, rfl, rfl⟩⟩, by simp [hb],
          Or.inr ⟨hc, b, rfl, by simp [hb]⟩, Or.inl (by simp [hb])⟩
      · have hb := handle_batch_ok r b
        rw [if_neg hc] at hb
        exact ⟨⟨QItem.unit b, by simp [hb], Or.inl ⟨b, rfl, rfl⟩⟩, by simp [hb],
          Or.inl (by simp [hb]), Or.inl (by simp [hb])⟩
    | bad e =>
      have hb := handle_batch_bad r e
      exact ⟨⟨QItem.exc e, by simp [hb], Or.inr ⟨e, rfl, rfl⟩⟩, by simp [hb],
        Or.inl (by simp [hb]), Or.inr ⟨e, rfl, by simp [hb]⟩⟩
  · intro r h
    cases h with
    | ok b =>
      by_cases hc : r.schemaCell = none
      · have hb := vesa_handle_batch_ok r b
        rw [if_pos hc] at hb
        exact ⟨⟨QItem.unit b, by simp [hb], Or.inl ⟨b, rfl, rfl⟩⟩,
          Or.inr ⟨hc, b, rfl, by simp [hb]⟩, Or.inl (by simp [hb])⟩
      · have hb := vesa_handle_batch_ok r b
        rw [if_neg hc] at hb
        exact ⟨⟨QItem.unit b, by simp [hb], Or.inl ⟨b, rfl, rfl⟩⟩,
          Or.inl (by simp [hb]), Or.inl (by simp [hb])⟩
    | bad e =>
      have hb := vesa_handle_batch_bad r e
      exact ⟨⟨QItem.exc e, by simp [hb], Or.inr ⟨e, rfl, rfl⟩⟩,
        Or.inl (by simp [hb]), Or.inr ⟨e, rfl, by simp [hb]⟩⟩

theorem handle_batch_queue_ext (r : ReaderState) (h : Handle) :
    ∃ it : QItem, (handle_batch r h).queue = r.queue ++ [it] ∧ it ≠ QItem.pyNone := by
  cases h with
  | ok b => exact ⟨QItem.unit b, handle_batch_ok_queue r b, by simp⟩
  | bad e => exact ⟨QItem.exc e, by simp [handle_batch_bad], by simp⟩

theorem vesa_handle_batch_queue_ext (r : VReaderState) (h : Handle) :
    ∃ it : QItem, (vesa_handle_batch r h).queue = r.queue ++ [it] ∧ it ≠ QItem.pyNone := by
  cases h with
  | ok b =>
    refine ⟨QItem.unit b, ?_, by simp⟩
    rw [vesa_handle_batch_ok]
    by_cases hc : r.schemaCell = none
    · rw [if_pos hc]
    · rw [if_neg hc]
  | bad e => exact ⟨QItem.exc e, by simp [vesa_handle_batch_bad], by simp⟩

theorem feedAll_queue_ext (hs : List Handle) : ∀ r : ReaderState,
    ∃ new : List QItem, (feedAll r hs).queue = r.queue ++ new ∧ QItem.pyNone ∉ new := by
  induction hs with
  | nil => intro r; exact ⟨[], by simp [feedAll], by simp⟩
  | cons hd tl ih =>
    intro r
    obtain ⟨it, hit, hne⟩ := handle_batch_queue_ext r hd
    obtain ⟨new, hnew, hmem⟩ := ih (handle_batch r hd)
    refine ⟨it :: new, ?_, ?_⟩
    · rw [feedAll_cons, hnew, hit]
      simp
    · intro hmem2
      rcases List.mem_cons.mp hmem2 with h2 | h2
      · exact hne h2.symm
      · exact hmem h2

theorem vesa_foldl_queue_ext (hs : List Handle) : ∀ r : VReaderState,
    ∃ new : List QItem, ((hs.foldl vesa_handle_batch r)).queue = r.queue ++ new ∧
      QItem.pyNone ∉ new := by
  induction hs with
  | nil => intro r; exact ⟨[], by simp, by simp⟩
  | cons hd tl ih =>
    intro r
    obtain ⟨it, hit, hne⟩ := vesa_handle_batch_queue_ext r hd
    obtain ⟨new, hnew, hmem⟩ := ih (vesa_handle_batch r hd)
    refine ⟨it :: new, ?_, ?_⟩
    · show (tl.foldl vesa_handle_batch (vesa_handle_batch r hd)).queue = r.queue ++ it :: new
      rw [hnew, hit]
      simp
    · intro hmem2
      rcases List.mem_cons.mp hmem2 with h2 | h2
      · exact hne h2.symm
      · exact hmem h2

theorem read_stream_queue_ext (r : ReaderState) (s : FeedScript) :
    ∃ new : List QItem, (read_stream r s).1.queue = r.queue ++ new ∧
      QItem.pyNone ∉ new := by
  obtain ⟨new, hnew, hmem⟩ := feedAll_queue_ext s.handles r
  cases hte : s.transferErr with
  | none =>
    have hr : read_stream r s = (mark_done (feedAll r s.handles), none) := by
      simp [read_stream, hte]
    exact ⟨new, by rw [hr]; exact hnew, hmem⟩
  | some e =>
    have hr : read_stream r s =
        (mark_done { feedAll r s.handles with error := some e }, some e) := by
      simp [read_stream, hte]
    exact ⟨new, by rw [hr]; exact hnew, hmem⟩

/-- C9 - confirmed.  In both variants, dequeuing `None` terminates the
iteration cleanly: the units before the sentinel are yielded, the sentinel
itself is never yielded, nothing after it is consumed, and no error is raised
(given no stored error).  Moreover no producer code path of the prototype ever
enqueues `None`: everything `_read_stream` (hence `_handle_batch` and
`mark_done`) adds to the queue, and everything the vesa callback adds, is a
batch or an exception. -/
theorem c9_none_sentinel :
    (∀ (us : List Batch) (rest : List QItem) (sc : Option Nat) (d : Bool),
        aiter_run ⟨us.map QItem.unit ++ QItem.pyNone :: rest, none, sc, d⟩ =
          (us, none, false)) ∧
    (∀ (us : List Batch) (rest : List QItem) (sc : Option Nat),
        vesa_aiter_run ⟨sc, us.map QItem.unit ++ QItem.pyNone :: rest, none⟩ = (us, none)) ∧
    (∀ (r : ReaderState) (s : FeedScript), ∃ new : List QItem,
        (read_stream r s).1.queue = r.queue ++ new ∧ QItem.pyNone ∉ new) ∧
    (∀ (r : VReaderState) (hs : List Handle), ∃ new : List QItem,
        ((hs.foldl vesa_handle_batch r)).queue = r.queue ++ new ∧
          QItem.pyNone ∉ new) := by
  refine ⟨?_, ?_, read_stream_queue_ext, fun r hs => vesa_foldl_queue_ext hs r⟩
  · intro us rest sc d
    show applyFinally none (iterLoop d (us.map QItem.unit ++ QItem.pyNone :: rest)) =
      (us, none, false)
    rw [iterLoop_units]
    show applyFinally none (us ++ [], LoopExit.brk) = (us, none, false)
    rw [List.append_nil]
    rfl
  · intro us rest sc
    show vesaFinally none (vesaIterLoop (us.map QItem.unit ++ QItem.pyNone :: rest)) =
      (us, none)
    rw [vesaIterLoop_units]
    show vesaFinally none (us ++ [], LoopExit.brk) = (us, none)
    rw [List.append_nil]
    rfl

/-- C10 - confirmed.  In both variants, whenever the iteration finishes (is not
suspended forever), a non-None stored `_error` is exactly what the iteration
raises from its `finally` clause — regardless of how the loop exited — and the
iteration finishes without raising only if no error is stored. -/
theorem c10_finally_raises_stored_error :
    (∀ r : ReaderState, (aiter_run r).2.2 = false →
        (r.error.isSome = true → (aiter_run r).2.1 = r.error) ∧
        ((aiter_run r).2.1 = none → r.error = none)) ∧
    (∀ r : VReaderState,
        (r.error.isSome = true → (vesa_aiter_run r).2 = r.error) ∧
        ((vesa_aiter_run r).2 = none → r.error = none)) := by
  constructor
  · intro r hb
    have ha : aiter_run r = applyFinally r.error (iterLoop r.done r.queue) := rfl
    rcases hl : iterLoop r.done r.queue with ⟨ys, ex⟩
    rw [ha, hl] at hb ⊢
    cases ex <;> cases herr : r.error <;> simp_all [applyFinally]
  · intro r
    have ha : vesa_aiter_run r = vesaFinally r.error (vesaIterLoop r.queue) := rfl
    rcases hl : vesaIterLoop r.queue with ⟨ys, ex⟩
    rw [ha, hl]
    cases ex <;> cases herr : r.error <;> simp_all [vesaFinally]

/-- C10 - witness: a done reader holding one unit and a stored transfer error
finishes (not suspended) and raises exactly the stored error. -/
theorem c10_finally_raises_stored_error_witness :
    (aiter_run ⟨[QItem.unit ⟨1, 7⟩], some (PyError.transferError 2), none, true⟩).2.2 =
      false ∧
    (aiter_run ⟨[QItem.unit ⟨1, 7⟩], some (PyError.transferError 2), none, true⟩).2.1 =
      some (PyError.transferError 2) :=
  ⟨by decide,
   (c10_finally_raises_stored_error.1
      ⟨[QItem.unit ⟨1, 7⟩], some (PyError.transferError 2), none, true⟩
      (by decide)).1 (by decide)⟩

end AsyncArrowReader
